import Mathlib

/-!
Shallow embedding of `backend/menu/recommendation_engine.py` from the
MenueEngineering repository, together with proofs of the specification
claims about the co-purchase analyzer and the recommendation engine.

Conventions of the embedding:
* Python `float` arithmetic is modelled by exact rationals (`ℚ`);
* UUIDs (menu-item ids, section ids) are modelled by `Nat`;
* Django querysets are modelled by explicit lists of records;
* the Django cache is modelled as an explicit `CacheState` value threaded
  through the stateful operations;
* Python list slicing `l[:n]` (including negative `n`) is modelled by
  `pySlice`, and Python `int(x)` truncation by `pyInt`.
-/

namespace MenuRec

/-- Python `l[:n]` slice semantics: for `n ≥ 0` the first `n` elements,
for `n < 0` everything but the last `|n|` elements. -/
def pySlice (n : Int) (l : List α) : List α :=
  if n < 0 then l.take ((l.length : Int) + n).toNat else l.take n.toNat

/-- Python `int(x)`: truncation toward zero. -/
def pyInt (q : ℚ) : Int :=
  if q < 0 then Int.ceil q else Int.floor q

/-- Python `round(x)`: round half to even (banker's rounding). -/
def pyRound (q : ℚ) : Int :=
  let f := Int.floor q
  let frac := q - f
  if frac < 1/2 then f
  else if frac > 1/2 then f + 1
  else if f % 2 = 0 then f else f + 1

/-- Python `round(x, 3)`: round to 3 decimal places, half to even. -/
def round3 (q : ℚ) : ℚ :=
  (pyRound (q * 1000) : ℚ) / 1000

/-! ## Data model (from `menu/models.py`) -/

/-- The `MenuItem` (fields used by the recommendation engine).
`category` is a nullable string; `margin` is the property `price - cost`. -/
structure MenuItem where
  id : Nat
  is_active : Bool
  category : Option String
  price : ℚ
  cost : ℚ
  total_purchases : Nat
  section_id : Nat
  title : String
  deriving Repr, DecidableEq

/-- The `MenuItem.margin` property: `price - cost` (never clamped). -/
def MenuItem.margin (m : MenuItem) : ℚ := m.price - m.cost

/-- An order with its status and line items; `menu_item` on an order line is
a nullable foreign key, hence `Option Nat`. Quantity is irrelevant to the
analyzer (it only asks which items co-occurred) so lines are just the
referenced item ids. -/
structure OrderRec where
  status : String
  items : List (Option Nat)
  deriving Repr, DecidableEq

/-! ## Dataclasses of `recommendation_engine.py` -/

/-- One entry of the affinity matrix:
`(associated_item_id, support, confidence, lift, count)`. -/
structure AffinityEntry where
  item_id : Nat
  support : ℚ
  confidence : ℚ
  lift : ℚ
  count : Nat
  deriving Repr, DecidableEq

/-- The `ItemAssociation` dataclass. -/
structure ItemAssociation where
  item_id : Nat
  item : MenuItem
  support : ℚ
  confidence : ℚ
  lift : ℚ
  order_count : Nat
  deriving Repr, DecidableEq

/-- The `ItemAssociation.message` property:
`f"{int(self.confidence * 100)}% of customers order this together"`. -/
def ItemAssociation.message (a : ItemAssociation) : String :=
  toString (pyInt (a.confidence * 100)) ++ "% of customers order this together"

/-- The `AffinityMatrix` dataclass; the dicts are modelled as association lists. -/
structure AffinityMatrix where
  associations : List (Nat × List AffinityEntry)
  total_orders : Nat
  item_frequencies : List (Nat × Nat)
  deriving Repr, DecidableEq

/-- The `RecommendationResult` dataclass. -/
structure RecommendationResult where
  item : MenuItem
  score : ℚ
  reason : String
  category_score : ℚ
  margin_score : ℚ
  copurchase_score : ℚ
  popularity_score : ℚ
  context_score : ℚ
  profit_impact : Option ℚ
  deriving Repr, DecidableEq

/-! ## Constants -/

/-- The `CATEGORY_SCORES.get(item.category, 0.5)`: the dict lookup with default. -/
def CATEGORY_SCORES (c : Option String) : ℚ :=
  match c with
  | none => 1/2
  | some "star" => 1
  | some "puzzle" => 85/100
  | some "plowhorse" => 6/10
  | some "dog" => 1/10
  | some "uncategorized" => 1/2
  | some _ => 1/2

def WEIGHT_CATEGORY : ℚ := 35/100
def WEIGHT_MARGIN : ℚ := 30/100
def WEIGHT_COPURCHASE : ℚ := 20/100
def WEIGHT_POPULARITY : ℚ := 10/100
def WEIGHT_CONTEXT : ℚ := 5/100

/-! ## Co-purchase analyzer (`CoPurchaseAnalyzer`) -/

/-- Default `min_support` of `CoPurchaseAnalyzer`. -/
def min_support : ℚ := 1/100

/-- Default `min_confidence` of `CoPurchaseAnalyzer`. -/
def min_confidence : ℚ := 1/10

/-- Statuses counted as realized purchases:
`Order.objects.filter(status__in=["completed", "delivered", "ready"])`. -/
def realizedStatuses : List String := ["completed", "delivered", "ready"]

/-- The realized orders of a history. -/
def realizedOrders (hist : List OrderRec) : List OrderRec :=
  hist.filter (fun o => realizedStatuses.contains o.status)

/-- The distinct menu items of one order (`items_in_order`): order lines with
a null `menu_item` are skipped, duplicates collapse to one occurrence. -/
def basket (o : OrderRec) : List Nat :=
  (o.items.filterMap id).dedup

/-- The `item_counts[a]`: number of realized orders whose basket contains `a`. -/
def itemCount (hist : List OrderRec) (a : Nat) : Nat :=
  ((realizedOrders hist).filter (fun o => (basket o).contains a)).length

/-- The `pair_counts[(a, b)]`: number of realized orders whose basket contains
both `a` and `b` (recorded symmetrically for both directions in the code). -/
def pairCount (hist : List OrderRec) (a b : Nat) : Nat :=
  ((realizedOrders hist).filter
    (fun o => (basket o).contains a && (basket o).contains b)).length

/-- All item ids occurring in some realized order (the keys of `item_counts`). -/
def allItems (hist : List OrderRec) : List Nat :=
  (((realizedOrders hist).map basket).flatten).dedup

/-- The `support = pair_count / total_orders` (only evaluated by the code when
`total_orders > 0`, which the early return guarantees). -/
def supportQ (hist : List OrderRec) (a b : Nat) : ℚ :=
  (pairCount hist a b : ℚ) / ((realizedOrders hist).length : ℚ)

/-- The `confidence = pair_count / item_counts[item_a] if item_counts[item_a] else 0`. -/
def confidenceQ (hist : List OrderRec) (a b : Nat) : ℚ :=
  if itemCount hist a ≠ 0 then (pairCount hist a b : ℚ) / (itemCount hist a : ℚ)
  else 0

/-- The `p_b = item_counts[item_b] / total_orders if total_orders else 0`. -/
def pB (hist : List OrderRec) (b : Nat) : ℚ :=
  if (realizedOrders hist).length ≠ 0 then
    (itemCount hist b : ℚ) / ((realizedOrders hist).length : ℚ)
  else 0

/-- The `lift = confidence / p_b if p_b > 0 else 0`. -/
def liftQ (hist : List OrderRec) (a b : Nat) : ℚ :=
  if pB hist b > 0 then confidenceQ hist a b / pB hist b else 0

/-- The directed association entry `a → b` produced by the per-pair loop of
`build_affinity_matrix`, or `none` when the pair never co-occurs (no key in
`pair_counts`) or is discarded by the support/confidence thresholds. -/
def mkEntry (hist : List OrderRec) (a b : Nat) : Option AffinityEntry :=
  if a = b ∨ pairCount hist a b = 0 ∨ (realizedOrders hist).length = 0 then none
  else if supportQ hist a b < min_support then none
  else if confidenceQ hist a b < min_confidence then none
  else some ⟨b, supportQ hist a b, confidenceQ hist a b, liftQ hist a b,
    pairCount hist a b⟩

/-- Stable insertion (descending by key) used to model Python's stable
`sort(key=..., reverse=True)`. -/
def insertDescBy (key : α → ℚ) (e : α) : List α → List α
  | [] => [e]
  | x :: xs => if key x < key e then e :: x :: xs else x :: insertDescBy key e xs

/-- Stable sort, descending by `key`. -/
def sortDescBy (key : α → ℚ) (l : List α) : List α :=
  l.foldl (fun acc e => insertDescBy key e acc) []

/-- The list of surviving entries with source item `a`, sorted by
descending lift. -/
def entriesFor (hist : List OrderRec) (a : Nat) : List AffinityEntry :=
  sortDescBy (fun e => e.lift) ((allItems hist).filterMap (fun b => mkEntry hist a b))

/-- The `CoPurchaseAnalyzer.build_affinity_matrix`, cache aside (the pure
computation from the realized order history). With zero realized orders it
returns `AffinityMatrix(total_orders=0)` with empty maps. -/
def build_affinity_matrix (hist : List OrderRec) : AffinityMatrix :=
  if (realizedOrders hist).length = 0 then ⟨[], 0, []⟩
  else
    { associations :=
        (allItems hist).filterMap (fun a =>
          if entriesFor hist a = [] then none else some (a, entriesFor hist a)),
      total_orders := (realizedOrders hist).length,
      item_frequencies := (allItems hist).map (fun a => (a, itemCount hist a)) }

/-! ## Cache model

The Django cache is modelled explicitly. A cached value that Python tests
with `if cached:` is used only when it is truthy: a dataclass instance is
always truthy, a list only when non-empty. -/

/-- Menu statistics computed by `RecommendationEngine._get_menu_stats`. -/
structure MenuStats where
  max_purchases : Nat
  avg_purchases : ℚ
  max_margin : ℚ
  avg_margin : ℚ
  deriving Repr, DecidableEq

/-- The explicit cache: the affinity-matrix key, the per-item
frequently-bought-together keys and the menu-stats key. -/
structure CacheState where
  affinity : Option AffinityMatrix
  fbt : List (Nat × List ItemAssociation)
  menu_stats : Option MenuStats
  deriving Repr, DecidableEq

/-- A cache with no live entries. -/
def CacheState.empty : CacheState := ⟨none, [], none⟩

/-- Look up a per-item FBT cache entry. -/
def fbtGet (st : CacheState) (k : Nat) : Option (List ItemAssociation) :=
  (st.fbt.find? (fun p => p.1 == k)).map (fun p => p.2)

/-- Store a per-item FBT cache entry (whole-value replacement). -/
def fbtSet (st : CacheState) (k : Nat) (v : List ItemAssociation) : CacheState :=
  { st with fbt := (k, v) :: st.fbt.filter (fun p => ¬ p.1 == k) }

/-- The `item_id in matrix.associations` / `matrix.associations[item_id]`. -/
def assocGet (m : AffinityMatrix) (k : Nat) : Option (List AffinityEntry) :=
  (m.associations.find? (fun p => p.1 == k)).map (fun p => p.2)

/-- The `CoPurchaseAnalyzer.build_affinity_matrix(use_cache)` with the cache
threaded explicitly. Note the code returns the empty matrix for zero
realized orders before reaching `cache.set`, so an empty matrix is never
cached, and with `use_cache=False` nothing is read from or written to the
cache. -/
def build_affinity_matrix_c (hist : List OrderRec) (use_cache : Bool)
    (st : CacheState) : AffinityMatrix × CacheState :=
  let compute : CacheState → AffinityMatrix × CacheState := fun st0 =>
    if (realizedOrders hist).length = 0 then (⟨[], 0, []⟩, st0)
    else
      let m := build_affinity_matrix hist
      if use_cache then (m, { st0 with affinity := some m }) else (m, st0)
  if use_cache then
    match st.affinity with
    | some m => (m, st)
    | none => compute st
  else compute st

/-- The `MenuItem.objects.get(id=..., is_active=True)`: modelled as a lookup in
the catalog list; `none` plays the role of `MenuItem.DoesNotExist`. -/
def lookupActive (catalog : List MenuItem) (i : Nat) : Option MenuItem :=
  catalog.find? (fun m => m.id == i && m.is_active)

/-- Matrix acquisition inside `get_item_associations`: obtain the matrix
honoring `use_cache`, and when the item is absent from a (possibly stale)
cached matrix, rebuild it uncached once. -/
def fetchMatrix (hist : List OrderRec) (item_id : Nat) (use_cache : Bool)
    (st0 : CacheState) : AffinityMatrix × CacheState :=
  let p1 := build_affinity_matrix_c hist use_cache st0
  if (assocGet p1.1 item_id).isNone && use_cache then
    build_affinity_matrix_c hist false p1.2
  else p1

/-- The join loop of `get_item_associations`: each entry is joined with the
associated item's current catalog record, silently dropping entries whose
item is inactive or no longer exists (`MenuItem.DoesNotExist` → skip). -/
def joinEntries (catalog : List MenuItem) (es : List AffinityEntry) :
    List ItemAssociation :=
  es.filterMap (fun ad =>
    (lookupActive catalog ad.item_id).map (fun it =>
      ItemAssociation.mk ad.item_id it ad.support ad.confidence ad.lift
        ad.count))

/-- The cache-miss path of `CoPurchaseAnalyzer.get_item_associations`:
obtain the matrix, join the first `limit` entries with the catalog, and
write the joined, limit-truncated list back to the per-item cache — except
on the early `return []` path, which caches nothing. -/
def get_item_associations_body (catalog : List MenuItem) (hist : List OrderRec)
    (item_id : Nat) (limit : Int) (use_cache : Bool) (st0 : CacheState) :
    List ItemAssociation × CacheState :=
  let p2 := fetchMatrix hist item_id use_cache st0
  match assocGet p2.1 item_id with
  | none => ([], p2.2)
  | some entries =>
    let associations := joinEntries catalog (pySlice limit entries)
    if use_cache then (associations, fbtSet p2.2 item_id associations)
    else (associations, p2.2)

/-- The `CoPurchaseAnalyzer.get_item_associations(item_id, limit, use_cache)`.
The per-item cache is consulted first; `if cached:` is false both for a
missing key and for a cached empty list, in which cases the full
computation runs. -/
def get_item_associations (catalog : List MenuItem) (hist : List OrderRec)
    (item_id : Nat) (limit : Int) (use_cache : Bool) (st : CacheState) :
    List ItemAssociation × CacheState :=
  if use_cache then
    match fbtGet st item_id with
    | some cached =>
      if cached ≠ [] then (pySlice limit cached, st)
      else get_item_associations_body catalog hist item_id limit use_cache st
    | none => get_item_associations_body catalog hist item_id limit use_cache st
  else get_item_associations_body catalog hist item_id limit use_cache st

/-! ## Recommendation engine (`RecommendationEngine`) -/

/-- Maximum of a list of rationals with a default for the empty list
(`max(xs) if xs else d`). -/
def maxQ (l : List ℚ) (d : ℚ) : ℚ :=
  match l with
  | [] => d
  | x :: xs => xs.foldl max x

/-- Maximum of a list of naturals with a default for the empty list. -/
def maxNat (l : List Nat) (d : Nat) : Nat :=
  match l with
  | [] => d
  | x :: xs => xs.foldl max x

/-- The `RecommendationEngine._get_menu_stats`, pure part: statistics over the
active items. Every `MenuItem` has the `margin` property, so the
`hasattr(item, "margin")` test always succeeds. -/
def computeMenuStats (catalog : List MenuItem) : MenuStats :=
  let items := catalog.filter (fun m => m.is_active)
  let purchases := items.map (fun m => m.total_purchases)
  let margins := items.map (fun m => m.margin)
  { max_purchases := maxNat purchases 1,
    avg_purchases :=
      if purchases = [] then 0 else (purchases.sum : ℚ) / (purchases.length : ℚ),
    max_margin := maxQ margins 1,
    avg_margin := if margins = [] then 0 else margins.sum / (margins.length : ℚ) }

/-- The `RecommendationEngine._get_menu_stats` with its 5-minute cache. -/
def _get_menu_stats (catalog : List MenuItem) (st : CacheState) :
    MenuStats × CacheState :=
  match st.menu_stats with
  | some s => (s, st)
  | none =>
    let s := computeMenuStats catalog
    (s, { st with menu_stats := some s })

/-- The `RecommendationEngine._normalize_margin`: `min(margin / max_margin, 1.0)`
where `max_margin = stats.get("max_margin", 1) or 1` (the `or 1` replaces a
zero value by 1). There is no lower clamp at 0. -/
def _normalize_margin (item : MenuItem) (stats : MenuStats) : ℚ :=
  let max_margin := if stats.max_margin = 0 then 1 else stats.max_margin
  min (item.margin / max_margin) 1

/-- The `RecommendationEngine._normalize_popularity`. -/
def _normalize_popularity (item : MenuItem) (stats : MenuStats) : ℚ :=
  let max_purchases := if stats.max_purchases = 0 then 1 else stats.max_purchases
  min ((item.total_purchases : ℚ) / (max_purchases : ℚ)) 1

/-- The five weights of a strategy profile. -/
structure StrategyWeights where
  category : ℚ
  margin : ℚ
  copurchase : ℚ
  popularity : ℚ
  context : ℚ
  deriving Repr, DecidableEq

/-- The `RecommendationEngine._get_strategy_weights`: everything other than
"upsell" and "cross_sell" resolves to the balanced weights. -/
def _get_strategy_weights (strategy : String) : StrategyWeights :=
  if strategy = "upsell" then
    ⟨30/100, 45/100, 15/100, 5/100, 5/100⟩
  else if strategy = "cross_sell" then
    ⟨25/100, 20/100, 35/100, 10/100, 10/100⟩
  else
    ⟨WEIGHT_CATEGORY, WEIGHT_MARGIN, WEIGHT_COPURCHASE, WEIGHT_POPULARITY,
      WEIGHT_CONTEXT⟩

/-- The `RecommendationEngine._generate_reason`. -/
def _generate_reason (item : MenuItem) (_category_score : ℚ) (margin_score : ℚ)
    (copurchase_score : ℚ) (popularity_score : ℚ) : String :=
  let reasons : List String :=
    (if item.category = some "star" then ["⭐ Popular favorite"]
     else if item.category = some "puzzle" then ["💎 Hidden gem"] else [])
    ++ (if copurchase_score > 1/2 then ["🍽️ Pairs perfectly with your order"]
        else if copurchase_score > 1/5 then ["👥 Often ordered together"] else [])
    ++ (if popularity_score > 7/10 then ["🔥 Customer favorite"] else [])
    ++ (if margin_score > 8/10 then ["💰 Great value"] else [])
  let reasons := if reasons = [] then ["✨ Recommended for you"] else reasons
  String.intercalate " • " (reasons.take 2)

/-- Lookup in the copurchase-score dict with default 0
(`copurchase_scores.get(item.id, 0.0)`). -/
def scoreGet (scores : List (Nat × ℚ)) (k : Nat) : ℚ :=
  match scores.find? (fun p => p.1 == k) with
  | some p => p.2
  | none => 0

/-- The `RecommendationEngine._score_item`. -/
def _score_item (item : MenuItem) (copurchase_scores : List (Nat × ℚ))
    (stats : MenuStats) (strategy : String) : RecommendationResult :=
  let category_score := CATEGORY_SCORES item.category
  let margin_score := _normalize_margin item stats
  let copurchase_score := scoreGet copurchase_scores item.id
  let popularity_score := _normalize_popularity item stats
  let context_score : ℚ := 1/2
  let weights := _get_strategy_weights strategy
  let score :=
    category_score * weights.category
    + margin_score * weights.margin
    + copurchase_score * weights.copurchase
    + popularity_score * weights.popularity
    + context_score * weights.context
  { item := item,
    score := round3 score,
    reason := _generate_reason item category_score margin_score copurchase_score
      popularity_score,
    category_score := round3 category_score,
    margin_score := round3 margin_score,
    copurchase_score := round3 copurchase_score,
    popularity_score := round3 popularity_score,
    context_score := round3 context_score,
    profit_impact := some item.margin }

/-- The `scores[k] = max(scores[k], v)` on a `defaultdict(float)` modelled as an
association list (absent keys read as 0). -/
def bumpScore (scores : List (Nat × ℚ)) (k : Nat) (v : ℚ) : List (Nat × ℚ) :=
  if scores.any (fun p => p.1 == k) then
    scores.map (fun p => if p.1 == k then (p.1, max p.2 v) else p)
  else scores ++ [(k, max 0 v)]

/-- The `RecommendationEngine._get_copurchase_scores`: for each cart item fetch
its top-10 associations, keep `max` of `lift / 5` per associated item, then
rescale the whole map by its maximum when that maximum exceeds 1. -/
def _get_copurchase_scores (catalog : List MenuItem) (hist : List OrderRec)
    (current_items : List Nat) (st : CacheState) :
    List (Nat × ℚ) × CacheState :=
  let p := current_items.foldl
    (fun (acc : List (Nat × ℚ) × CacheState) item_id =>
      let q := get_item_associations catalog hist item_id 10 true acc.2
      (q.1.foldl (fun sc a => bumpScore sc a.item_id (a.lift / 5)) acc.1, q.2))
    ([], st)
  match p.1 with
  | [] => ([], p.2)
  | x :: xs =>
    let max_score := xs.foldl (fun m q => max m q.2) x.2
    if max_score > 1 then ((x :: xs).map (fun q => (q.1, q.2 / max_score)), p.2)
    else (x :: xs, p.2)

/-- The candidate queryset of `get_recommendations`:
`MenuItem.objects.filter(is_active=True).exclude(id__in=exclude_ids)`,
optionally filtered to one section. -/
def candidateItems (catalog : List MenuItem) (exclude_ids : List Nat)
    (section_id : Option Nat) : List MenuItem :=
  let cands := (catalog.filter (fun m => m.is_active)).filter
    (fun m => ¬ exclude_ids.contains m.id)
  match section_id with
  | some s => cands.filter (fun m => m.section_id == s)
  | none => cands

/-- The `RecommendationEngine.get_recommendations`. The exclusion set is the
union of `exclude_ids` and `current_items`; results are scored, stably
sorted by descending score and cut with Python slice semantics
`results[:limit]`. -/
def get_recommendations (catalog : List MenuItem) (hist : List OrderRec)
    (current_items : List Nat) (section_id : Option Nat)
    (exclude_ids : List Nat) (limit : Int) (strategy : String)
    (st : CacheState) : List RecommendationResult × CacheState :=
  let excl := exclude_ids ++ current_items
  let candidates := candidateItems catalog excl section_id
  let p :=
    if current_items ≠ [] then _get_copurchase_scores catalog hist current_items st
    else ([], st)
  let q := _get_menu_stats catalog p.2
  let results := candidates.map (fun item => _score_item item p.1 q.1 strategy)
  (pySlice limit (sortDescBy (fun r => r.score) results), q.2)

/-- The `RecommendationEngine.get_frequently_bought_together`: a direct wrapper
around `get_item_associations` (with `use_cache` left at its default). -/
def get_frequently_bought_together (catalog : List MenuItem)
    (hist : List OrderRec) (item_id : Nat) (limit : Int) (st : CacheState) :
    List ItemAssociation × CacheState :=
  get_item_associations catalog hist item_id limit true st

/-- The `RecommendationEngine.get_upsell_suggestions`. -/
def get_upsell_suggestions (catalog : List MenuItem) (hist : List OrderRec)
    (current_items : List Nat) (limit : Int) (st : CacheState) :
    List RecommendationResult × CacheState :=
  get_recommendations catalog hist current_items none [] limit "upsell" st

/-- The sections already represented in the cart:
`MenuItem.objects.filter(id__in=current_items)` (note: not restricted to
active items). -/
def currentSections (catalog : List MenuItem) (current_items : List Nat) :
    List Nat :=
  (catalog.filter (fun m => current_items.contains m.id)).map
    (fun m => m.section_id)

/-- The `RecommendationEngine.get_cross_sell_suggestions`: over-fetch
`limit * 2` recommendations with the "cross_sell" strategy, put results from
sections not in the cart first, then same-section results, truncate to
`limit`. -/
def get_cross_sell_suggestions (catalog : List MenuItem) (hist : List OrderRec)
    (current_items : List Nat) (limit : Int) (st : CacheState) :
    List RecommendationResult × CacheState :=
  let secs := currentSections catalog current_items
  let p := get_recommendations catalog hist current_items none [] (limit * 2)
    "cross_sell" st
  let cross_sell := p.1.filter (fun r => ¬ secs.contains r.item.section_id)
  let same_section := p.1.filter (fun r => secs.contains r.item.section_id)
  (pySlice limit (cross_sell ++ same_section), p.2)

/-! ## Helper lemmas -/

theorem mem_insertDescBy {key : α → ℚ} {e x : α} {l : List α} :
    x ∈ insertDescBy key e l ↔ x = e ∨ x ∈ l := by
  induction l with
  | nil => simp [insertDescBy]
  | cons y ys ih =>
    simp only [insertDescBy]
    split
    · simp
    · simp only [List.mem_cons, ih]
      tauto

theorem mem_sortDescBy {key : α → ℚ} {l : List α} {x : α} :
    x ∈ sortDescBy key l ↔ x ∈ l := by
  have gen : ∀ (l acc : List α),
      (x ∈ l.foldl (fun acc e => insertDescBy key e acc) acc ↔ x ∈ acc ∨ x ∈ l) := by
    intro l
    induction l with
    | nil => simp
    | cons y ys ih =>
      intro acc
      simp only [List.foldl_cons, ih, mem_insertDescBy, List.mem_cons]
      tauto
  simpa [sortDescBy] using gen l []

theorem length_insertDescBy (key : α → ℚ) (e : α) (l : List α) :
    (insertDescBy key e l).length = l.length + 1 := by
  induction l with
  | nil => rfl
  | cons y ys ih =>
    simp only [insertDescBy]
    split
    · simp
    · simp [ih]

theorem length_sortDescBy (key : α → ℚ) (l : List α) :
    (sortDescBy key l).length = l.length := by
  have gen : ∀ (l acc : List α),
      (l.foldl (fun acc e => insertDescBy key e acc) acc).length
        = acc.length + l.length := by
    intro l
    induction l with
    | nil => simp
    | cons y ys ih =>
      intro acc
      rw [List.foldl_cons, ih, length_insertDescBy]
      simp only [List.length_cons]
      omega
  simpa [sortDescBy] using gen l []

theorem pySlice_subset (n : Int) (l : List α) : pySlice n l ⊆ l := by
  unfold pySlice
  split <;> exact List.take_subset _ _

theorem length_pySlice_le (n : Int) (l : List α) :
    (pySlice n l).length ≤ l.length := by
  unfold pySlice
  split <;> simp [List.length_take]

theorem length_pySlice_le_toNat (n : Int) (l : List α) (h : 0 ≤ n) :
    (pySlice n l).length ≤ n.toNat := by
  unfold pySlice
  rw [if_neg (by omega)]
  simp [List.length_take]

theorem length_filter_mono {p q : α → Bool} (l : List α)
    (h : ∀ x ∈ l, p x = true → q x = true) :
    (l.filter p).length ≤ (l.filter q).length := by
  induction l with
  | nil => simp
  | cons x xs ih =>
    have ih' := ih (fun y hy hp => h y (List.mem_cons_of_mem _ hy) hp)
    simp only [List.filter_cons]
    by_cases hx : p x = true
    · rw [if_pos hx, if_pos (h x (List.mem_cons_self _ _) hx)]
      simpa using ih'
    · rw [if_neg hx]
      split
      · exact Nat.le_trans ih' (by simp)
      · exact ih'

/-! ## Facts about the co-purchase counts -/

theorem pairCount_comm (hist : List OrderRec) (a b : Nat) :
    pairCount hist a b = pairCount hist b a := by
  unfold pairCount
  congr 1
  apply List.filter_congr
  intro o _
  rw [Bool.and_comm]

theorem pairCount_le_itemCount_left (hist : List OrderRec) (a b : Nat) :
    pairCount hist a b ≤ itemCount hist a := by
  apply length_filter_mono
  intro o _ h
  exact (Bool.and_eq_true_iff.mp h).1

theorem pairCount_le_itemCount_right (hist : List OrderRec) (a b : Nat) :
    pairCount hist a b ≤ itemCount hist b := by
  apply length_filter_mono
  intro o _ h
  exact (Bool.and_eq_true_iff.mp h).2

/-- Inversion of the per-pair loop: what is true of every surviving entry. -/
theorem mkEntry_some_inv {hist : List OrderRec} {a b : Nat} {e : AffinityEntry}
    (h : mkEntry hist a b = some e) :
    e.item_id = b ∧ e.support = supportQ hist a b ∧
    e.confidence = confidenceQ hist a b ∧ e.lift = liftQ hist a b ∧
    e.count = pairCount hist a b ∧
    a ≠ b ∧ pairCount hist a b ≠ 0 ∧ (realizedOrders hist).length ≠ 0 ∧
    itemCount hist a ≠ 0 ∧ itemCount hist b ≠ 0 ∧
    min_support ≤ supportQ hist a b ∧ min_confidence ≤ confidenceQ hist a b := by
  unfold mkEntry at h
  split at h
  · exact absurd h (by simp)
  · rename_i hguard
    push_neg at hguard
    obtain ⟨hab, hc, ht⟩ := hguard
    split at h
    · exact absurd h (by simp)
    · rename_i hsup
      split at h
      · exact absurd h (by simp)
      · rename_i hconf
        have ha : itemCount hist a ≠ 0 := by
          intro h0
          rw [confidenceQ, if_neg (by simpa using h0)] at hconf
          exact hconf (by norm_num [min_confidence])
        have hb : itemCount hist b ≠ 0 := by
          intro h0
          have := pairCount_le_itemCount_right hist a b
          omega
        obtain rfl := (Option.some_inj.mp h).symm
        exact ⟨rfl, rfl, rfl, rfl, rfl, hab, hc, ht, ha, hb,
          not_lt.mp hsup, not_lt.mp hconf⟩

/-- Every entry stored under key `a` in a built matrix is `mkEntry hist a b`
for its own `item_id = b`. -/
theorem entry_of_matrix {hist : List OrderRec} {a : Nat}
    {es : List AffinityEntry} {e : AffinityEntry}
    (hmem : (a, es) ∈ (build_affinity_matrix hist).associations)
    (he : e ∈ es) :
    mkEntry hist a e.item_id = some e := by
  unfold build_affinity_matrix at hmem
  split at hmem
  · simp at hmem
  · simp only [List.mem_filterMap] at hmem
    obtain ⟨a', _, ha'⟩ := hmem
    split at ha'
    · simp at ha'
    · obtain ⟨ha1, ha2⟩ : a' = a ∧ entriesFor hist a' = es := by
        simpa [Prod.ext_iff] using ha'
      rw [← ha1]
      rw [← ha2] at he
      have he' : e ∈ (allItems hist).filterMap (fun b => mkEntry hist a' b) :=
        mem_sortDescBy.mp he
      obtain ⟨b, _, hb⟩ := List.mem_filterMap.mp he'
      rwa [(mkEntry_some_inv hb).1]

/-- With at least one realized order, the snapshot's `total_orders` field is
the realized-order count. -/
theorem total_orders_build (hist : List OrderRec)
    (hne : realizedOrders hist ≠ []) :
    (build_affinity_matrix hist).total_orders = (realizedOrders hist).length := by
  unfold build_affinity_matrix
  rw [if_neg (by simpa using hne)]

/-! ## Claim theorems

Batteries marks the rational-number operations `@[irreducible]`; conclusions
about concrete inputs are settled by evaluation, so within this development
they are made semireducible again. -/

attribute [local semireducible] Rat.mul Rat.inv Rat.add Rat.sub Rat.ofScientific

/-- C9: each of the three strategy profiles resolves to five non-negative
weights summing exactly to 1 (hence within 1e-9), and every strategy string
other than "upsell" and "cross_sell" resolves to the balanced weights. -/
theorem c9_strategy_weights (s : String) :
    (0 ≤ (_get_strategy_weights s).category ∧
     0 ≤ (_get_strategy_weights s).margin ∧
     0 ≤ (_get_strategy_weights s).copurchase ∧
     0 ≤ (_get_strategy_weights s).popularity ∧
     0 ≤ (_get_strategy_weights s).context ∧
     (_get_strategy_weights s).category + (_get_strategy_weights s).margin
       + (_get_strategy_weights s).copurchase
       + (_get_strategy_weights s).popularity
       + (_get_strategy_weights s).context = 1) ∧
    (s ≠ "upsell" → s ≠ "cross_sell" →
      _get_strategy_weights s = _get_strategy_weights "balanced") := by
  by_cases h1 : s = "upsell"
  · subst h1
    refine ⟨?_, fun h _ => absurd rfl h⟩
    unfold _get_strategy_weights
    rw [if_pos rfl]
    norm_num
  · by_cases h2 : s = "cross_sell"
    · subst h2
      refine ⟨?_, fun _ h => absurd rfl h⟩
      unfold _get_strategy_weights
      rw [if_neg (by decide), if_pos rfl]
      norm_num
    · refine ⟨?_, fun _ _ => ?_⟩
      · unfold _get_strategy_weights
        rw [if_neg h1, if_neg h2]
        norm_num [WEIGHT_CATEGORY, WEIGHT_MARGIN, WEIGHT_COPURCHASE,
          WEIGHT_POPULARITY, WEIGHT_CONTEXT]
      · unfold _get_strategy_weights
        rw [if_neg h1, if_neg h2, if_neg (by decide), if_neg (by decide)]

/-- Witness for C9: the unrecognized strategy "profit" resolves to the
balanced weights. -/
theorem c9_strategy_weights_witness :
    _get_strategy_weights "profit" = _get_strategy_weights "balanced" :=
  (c9_strategy_weights "profit").2 (by decide) (by decide)

/-- C8: with zero realized orders, `build_affinity_matrix(use_cache=False)`
returns an `AffinityMatrix` with `total_orders = 0` and empty associations
and item-frequency maps, leaving the cache untouched; the embedding is a
total function, so no error is raised. -/
theorem c8_zero_orders_empty_matrix (hist : List OrderRec) (st : CacheState)
    (h : realizedOrders hist = []) :
    build_affinity_matrix_c hist false st
      = (⟨[], 0, []⟩, st) := by
  unfold build_affinity_matrix_c
  simp [h]

/-- Witness for C8: a history whose only order is still pending has zero
realized orders, and the uncached build returns the empty matrix. -/
theorem c8_zero_orders_empty_matrix_witness :
    build_affinity_matrix_c [⟨"pending", [some 1, some 2]⟩] false
        CacheState.empty
      = (⟨[], 0, []⟩, CacheState.empty) :=
  c8_zero_orders_empty_matrix _ _ (by decide)

/-- Follows the spec's words for the §4.2 margin sub-score:
`marginScore = clamp(item.margin / maxMarginAcrossActiveItems, 0, 1)` with
`maxMarginAcrossActiveItems` defaulting to 1 when the active set is empty or
all margins are non-positive. Stated only for comparison with the code's
`_normalize_margin`. -/
def spec_margin_score (catalog : List MenuItem) (item : MenuItem) : ℚ :=
  let margins := (catalog.filter (fun m => m.is_active)).map (fun m => m.margin)
  let maxM := if margins.all (fun q => decide (q ≤ 0)) then 1 else maxQ margins 1
  max 0 (min (item.margin / maxM) 1)

/-- C1 fails on the code: `_normalize_margin` computes
`min(margin / max_margin, 1.0)` with no lower clamp at 0, so a loss-making
item escapes [0, 1]. On a catalog of two active items with margins 1 and
−10, the scored results of a balanced `get_recommendations` pass carry
margin sub-score −10 and overall score −2.8 for the loss-making item — both
outside [0, 1] — while the spec's clamp formula yields 0 there. -/
theorem c1_margin_score_escapes_unit_interval :
    ((get_recommendations
        [⟨1, true, none, 11, 10, 0, 1, "A"⟩, ⟨2, true, none, 0, 10, 0, 1, "B"⟩]
        [] [] none [] 5 "balanced" CacheState.empty).1.map
      (fun r => (r.margin_score, r.score)))
      = [((1 : ℚ), 1/2), (-10, -14/5)] ∧
    spec_margin_score
        [⟨1, true, none, 11, 10, 0, 1, "A"⟩, ⟨2, true, none, 0, 10, 0, 1, "B"⟩]
        ⟨2, true, none, 0, 10, 0, 1, "B"⟩ = 0 ∧
    (-10 : ℚ) < 0 ∧ (-14/5 : ℚ) < 0 := by
  refine ⟨by decide, ?_, by norm_num, by norm_num⟩
  norm_num [spec_margin_score, maxQ, MenuItem.margin]

/-- C2: every retained directed entry of an affinity matrix built from a
non-empty realized order history satisfies `support ≥ min_support` and
`confidence ≥ min_confidence`, and its support field is exactly
`pair_count / total_orders`, where `pair_count` (also stored in the entry's
count field) is the number of realized orders containing both endpoints and
`total_orders` is the snapshot's realized-order count. -/
theorem c2_entry_thresholds_and_support (hist : List OrderRec) (a : Nat)
    (es : List AffinityEntry) (e : AffinityEntry)
    (hne : realizedOrders hist ≠ [])
    (hmem : (a, es) ∈ (build_affinity_matrix hist).associations)
    (he : e ∈ es) :
    min_support ≤ e.support ∧ min_confidence ≤ e.confidence ∧
    e.count = pairCount hist a e.item_id ∧
    e.support = (pairCount hist a e.item_id : ℚ)
      / ((build_affinity_matrix hist).total_orders : ℚ) := by
  have h := entry_of_matrix hmem he
  obtain ⟨_, hsupE, hconfE, _, hcountE, _, _, _, _, _, hsup, hconf⟩ :=
    mkEntry_some_inv h
  rw [total_orders_build hist hne, hsupE, hconfE, hcountE]
  exact ⟨hsup, hconf, rfl, rfl⟩

/-- Witness for C2 on a concrete three-order history. -/
theorem c2_entry_thresholds_and_support_witness :
    min_support ≤ ((⟨2, 2/3, 2/3, 1, 2⟩ : AffinityEntry)).support ∧
    min_confidence ≤ ((⟨2, 2/3, 2/3, 1, 2⟩ : AffinityEntry)).confidence ∧
    ((⟨2, 2/3, 2/3, 1, 2⟩ : AffinityEntry)).count
      = pairCount [⟨"completed", [some 1, some 2]⟩,
          ⟨"completed", [some 1, some 2]⟩, ⟨"completed", [some 1]⟩] 1
          ((⟨2, 2/3, 2/3, 1, 2⟩ : AffinityEntry)).item_id ∧
    ((⟨2, 2/3, 2/3, 1, 2⟩ : AffinityEntry)).support
      = (pairCount [⟨"completed", [some 1, some 2]⟩,
          ⟨"completed", [some 1, some 2]⟩, ⟨"completed", [some 1]⟩] 1
          ((⟨2, 2/3, 2/3, 1, 2⟩ : AffinityEntry)).item_id : ℚ)
        / ((build_affinity_matrix [⟨"completed", [some 1, some 2]⟩,
            ⟨"completed", [some 1, some 2]⟩,
            ⟨"completed", [some 1]⟩]).total_orders : ℚ) :=
  c2_entry_thresholds_and_support _ 1 [⟨2, 2/3, 2/3, 1, 2⟩] _
    (by decide) (by decide) (by decide)

/-- Explicit formula for a retained lift value. -/
theorem liftQ_eq {hist : List OrderRec} {a b : Nat}
    (htot : (realizedOrders hist).length ≠ 0)
    (ha : itemCount hist a ≠ 0) (hb : itemCount hist b ≠ 0) :
    liftQ hist a b = ((pairCount hist a b : ℚ) / (itemCount hist a : ℚ))
      / ((itemCount hist b : ℚ) / ((realizedOrders hist).length : ℚ)) := by
  have hbQ : (0 : ℚ) <
      (itemCount hist b : ℚ) / ((realizedOrders hist).length : ℚ) :=
    div_pos (by exact_mod_cast Nat.pos_of_ne_zero hb)
      (by exact_mod_cast Nat.pos_of_ne_zero htot)
  unfold liftQ pB confidenceQ
  rw [if_pos htot, if_pos hbQ, if_pos ha]

/-- Exact-arithmetic symmetry of lift for a co-occurring pair: both
directions reduce to `count · total / (occ(A) · occ(B))`. -/
theorem liftQ_comm {hist : List OrderRec} {a b : Nat}
    (hc : pairCount hist a b ≠ 0) :
    liftQ hist a b = liftQ hist b a := by
  have htot : (realizedOrders hist).length ≠ 0 := by
    have hle := List.length_filter_le
      (fun o => (basket o).contains a && (basket o).contains b)
      (realizedOrders hist)
    unfold pairCount at hc
    omega
  have ha : itemCount hist a ≠ 0 := by
    have := pairCount_le_itemCount_left hist a b
    omega
  have hb : itemCount hist b ≠ 0 := by
    have := pairCount_le_itemCount_right hist a b
    omega
  have haQ : (itemCount hist a : ℚ) ≠ 0 := Nat.cast_ne_zero.mpr ha
  have hbQ : (itemCount hist b : ℚ) ≠ 0 := Nat.cast_ne_zero.mpr hb
  have htQ : ((realizedOrders hist).length : ℚ) ≠ 0 := Nat.cast_ne_zero.mpr htot
  rw [liftQ_eq htot ha hb, liftQ_eq htot hb ha, pairCount_comm hist b a]
  field_simp
  ring

/-- Both retained directions of one pair have equal support and (in exact
arithmetic) equal lift. -/
theorem matrix_pair_symm {hist : List OrderRec} {a b : Nat}
    {esa esb : List AffinityEntry} {ea eb : AffinityEntry}
    (hma : (a, esa) ∈ (build_affinity_matrix hist).associations) (hea : ea ∈ esa)
    (hidb : ea.item_id = b)
    (hmb : (b, esb) ∈ (build_affinity_matrix hist).associations) (heb : eb ∈ esb)
    (hida : eb.item_id = a) :
    ea.support = eb.support ∧ ea.lift = eb.lift := by
  have h1 := entry_of_matrix hma hea
  have h2 := entry_of_matrix hmb heb
  rw [hidb] at h1
  rw [hida] at h2
  obtain ⟨_, hs1, _, hl1, _, _, hc1, _, _, _, _, _⟩ := mkEntry_some_inv h1
  obtain ⟨_, hs2, _, hl2, _, _, _, _, _, _, _, _⟩ := mkEntry_some_inv h2
  refine ⟨?_, ?_⟩
  · rw [hs1, hs2]
    unfold supportQ
    rw [pairCount_comm hist b a]
  · rw [hl1, hl2]
    exact liftQ_comm hc1

/-- C4 (amended): whenever both directed entries of a pair survive the
thresholds, `support(A→B) = support(B→A)` — and, computed in exact rational
arithmetic, `lift(A→B) = lift(B→A)` as well: both equal
`count · total / (occ(A) · occ(B))`. Lift asymmetry does not exist; it is
the confidence that can differ between the two directions. -/
theorem c4_support_and_lift_symmetric (hist : List OrderRec) (a b : Nat)
    (esa esb : List AffinityEntry) (ea eb : AffinityEntry)
    (hma : (a, esa) ∈ (build_affinity_matrix hist).associations) (hea : ea ∈ esa)
    (hidb : ea.item_id = b)
    (hmb : (b, esb) ∈ (build_affinity_matrix hist).associations) (heb : eb ∈ esb)
    (hida : eb.item_id = a) :
    ea.support = eb.support ∧ ea.lift = eb.lift :=
  matrix_pair_symm hma hea hidb hmb heb hida

/-- Witness for C4 on a concrete history where both directions survive. -/
theorem c4_support_and_lift_symmetric_witness :
    ((⟨2, 2/3, 2/3, 1, 2⟩ : AffinityEntry)).support
        = ((⟨1, 2/3, 1, 1, 2⟩ : AffinityEntry)).support ∧
    ((⟨2, 2/3, 2/3, 1, 2⟩ : AffinityEntry)).lift
        = ((⟨1, 2/3, 1, 1, 2⟩ : AffinityEntry)).lift :=
  c4_support_and_lift_symmetric
    [⟨"completed", [some 1, some 2]⟩, ⟨"completed", [some 1, some 2]⟩,
      ⟨"completed", [some 1]⟩] 1 2
    [⟨2, 2/3, 2/3, 1, 2⟩] [⟨1, 2/3, 1, 1, 2⟩] _ _
    (by decide) (by decide) (by decide) (by decide) (by decide) (by decide)

/-- C4 as stated is false: there is no order history producing two retained
directed entries of one pair whose lift values differ, because in exact
arithmetic lift is symmetric. -/
theorem c4_no_lift_asymmetry_exists :
    ¬ ∃ (hist : List OrderRec) (a b : Nat)
        (esa esb : List AffinityEntry) (ea eb : AffinityEntry),
        (a, esa) ∈ (build_affinity_matrix hist).associations ∧ ea ∈ esa ∧
        ea.item_id = b ∧
        (b, esb) ∈ (build_affinity_matrix hist).associations ∧ eb ∈ esb ∧
        eb.item_id = a ∧ ea.lift ≠ eb.lift := by
  rintro ⟨hist, a, b, esa, esb, ea, eb, hma, hea, hidb, hmb, heb, hida, hne⟩
  exact hne (matrix_pair_symm hma hea hidb hmb heb hida).2

/-- Membership in the candidate queryset. -/
theorem mem_candidateItems {catalog : List MenuItem} {excl : List Nat}
    {section_id : Option Nat} {m : MenuItem}
    (h : m ∈ candidateItems catalog excl section_id) :
    m.is_active = true ∧ m.id ∉ excl ∧
    (∀ s, section_id = some s → m.section_id = s) := by
  unfold candidateItems at h
  cases section_id with
  | none =>
    simp only [List.mem_filter] at h
    obtain ⟨⟨_, hact⟩, hex⟩ := h
    refine ⟨hact, ?_, by rintro s ⟨⟩⟩
    simpa using hex
  | some s =>
    simp only [List.mem_filter] at h
    obtain ⟨⟨⟨_, hact⟩, hex⟩, hsec⟩ := h
    refine ⟨hact, by simpa using hex, ?_⟩
    rintro s' hs'
    cases hs'
    simpa using hsec

/-- C3: every result of `get_recommendations` is an active item whose id is
neither in `exclude_ids` nor among the cart's `current_items`, and it lies
in the requested section whenever a section filter is given. -/
theorem c3_recommendations_respect_exclusions (catalog : List MenuItem)
    (hist : List OrderRec) (current_items : List Nat)
    (section_id : Option Nat) (exclude_ids : List Nat) (limit : Int)
    (strategy : String) (st : CacheState) (r : RecommendationResult)
    (hr : r ∈ (get_recommendations catalog hist current_items section_id
      exclude_ids limit strategy st).1) :
    r.item.is_active = true ∧ r.item.id ∉ exclude_ids ∧
    r.item.id ∉ current_items ∧
    (∀ s, section_id = some s → r.item.section_id = s) := by
  unfold get_recommendations at hr
  have hr1 := pySlice_subset _ _ hr
  have hr2 := mem_sortDescBy.mp hr1
  obtain ⟨item, hitem, hscored⟩ := List.mem_map.mp hr2
  obtain ⟨hact, hexcl, hsec⟩ := mem_candidateItems hitem
  have hri : r.item = item := by
    rw [← hscored]
    rfl
  rw [List.mem_append] at hexcl
  push_neg at hexcl
  rw [hri]
  exact ⟨hact, hexcl.1, hexcl.2, hsec⟩

/-- Witness for C3 on a one-item catalog with a nontrivial exclusion set,
cart and section filter. -/
theorem c3_recommendations_respect_exclusions_witness :
    ((get_recommendations
        [⟨1, true, none, 10, 2, 0, 1, "A"⟩, ⟨2, true, none, 9, 2, 0, 1, "B"⟩]
        [] [7] (some 1) [5] 5 "balanced" CacheState.empty).1.headD
        ⟨⟨0, false, none, 0, 0, 0, 0, ""⟩, 0, "", 0, 0, 0, 0, 0, none⟩).item.is_active
      = true ∧
    ((get_recommendations
        [⟨1, true, none, 10, 2, 0, 1, "A"⟩, ⟨2, true, none, 9, 2, 0, 1, "B"⟩]
        [] [7] (some 1) [5] 5 "balanced" CacheState.empty).1.headD
        ⟨⟨0, false, none, 0, 0, 0, 0, ""⟩, 0, "", 0, 0, 0, 0, 0, none⟩).item.section_id
      = 1 := by
  have h := c3_recommendations_respect_exclusions
    [⟨1, true, none, 10, 2, 0, 1, "A"⟩, ⟨2, true, none, 9, 2, 0, 1, "B"⟩]
    [] [7] (some 1) [5] 5 "balanced" CacheState.empty
    ((get_recommendations
        [⟨1, true, none, 10, 2, 0, 1, "A"⟩, ⟨2, true, none, 9, 2, 0, 1, "B"⟩]
        [] [7] (some 1) [5] 5 "balanced" CacheState.empty).1.headD
        ⟨⟨0, false, none, 0, 0, 0, 0, ""⟩, 0, "", 0, 0, 0, 0, 0, none⟩)
    (by decide)
  exact ⟨h.1, h.2.2.2 1 rfl⟩

/-- Length of a negative-limit Python slice. -/
theorem length_pySlice_neg {n : Int} (l : List α) (h : n < 0) :
    (pySlice n l).length = ((l.length : Int) + n).toNat := by
  unfold pySlice
  rw [if_pos h, List.length_take]
  omega

/-- C6 (amended): a negative `limit` raises no error — `get_recommendations`
returns normally, and Python's `results[:limit]` slice semantics yield all
scored candidates except the last `|limit|` of them. -/
theorem c6_negative_limit_returns_normally (catalog : List MenuItem)
    (hist : List OrderRec) (current_items : List Nat)
    (section_id : Option Nat) (exclude_ids : List Nat) (limit : Int)
    (strategy : String) (st : CacheState) (h : limit < 0) :
    ((get_recommendations catalog hist current_items section_id exclude_ids
        limit strategy st).1).length
      = (((candidateItems catalog (exclude_ids ++ current_items)
            section_id).length : Int) + limit).toNat := by
  unfold get_recommendations
  rw [length_pySlice_neg _ h, length_sortDescBy, List.length_map]

/-- Witness for C6: with two candidates and `limit = -1`, one scored result
comes back (no exception). -/
theorem c6_negative_limit_returns_normally_witness :
    ((get_recommendations
        [⟨1, true, none, 10, 2, 0, 1, "A"⟩, ⟨2, true, none, 9, 2, 0, 2, "B"⟩]
        [] [] none [] (-1) "balanced" CacheState.empty).1).length
      = (((candidateItems
            [⟨1, true, none, 10, 2, 0, 1, "A"⟩, ⟨2, true, none, 9, 2, 0, 2, "B"⟩]
            ([] ++ []) none).length : Int) + (-1)).toNat :=
  c6_negative_limit_returns_normally _ _ _ _ _ _ _ _ (by decide)

/-- C6 as stated is false: a negative limit does not propagate an error; on
a two-candidate catalog, `limit = -1` returns the best-scoring candidate
(Python's `results[:-1]` drops only the last element of the sorted list). -/
theorem c6_negative_limit_counterexample :
    ((get_recommendations
        [⟨1, true, none, 10, 2, 0, 1, "A"⟩, ⟨2, true, none, 8, 3, 0, 2, "B"⟩]
        [] [] none [] (-1) "balanced" CacheState.empty).1.map
      (fun r => r.item.id)) = [1] := by
  decide

/-- Follows the spec's words for the §4.3 frequently-bought-together
message: `round(confidence*100)` + "% of customers order this together",
with Python `round` (half to even). Stated only for comparison with the
code's `ItemAssociation.message`. -/
def spec_fbt_message (confidence : ℚ) : String :=
  toString (pyRound (confidence * 100)) ++ "% of customers order this together"

/-- C7 (amended): every association returned by
`getFrequentlyBoughtTogether` carries the message
`int(confidence*100)` — truncation, not rounding — followed by
"% of customers order this together". -/
theorem c7_message_uses_truncated_percentage (catalog : List MenuItem)
    (hist : List OrderRec) (item_id : Nat) (limit : Int) (st : CacheState)
    (a : ItemAssociation)
    (_ha : a ∈ (get_frequently_bought_together catalog hist item_id limit st).1) :
    a.message = toString (pyInt (a.confidence * 100))
      ++ "% of customers order this together" :=
  rfl

/-- Witness for C7 at a concrete history: the returned association with
confidence 2/3 is rendered as a 66% message. -/
theorem c7_message_uses_truncated_percentage_witness :
    ((⟨2, ⟨2, true, none, 8, 3, 0, 2, "B"⟩, 2/3, 2/3, 1, 2⟩ :
        ItemAssociation)).message
      = toString (pyInt (((⟨2, ⟨2, true, none, 8, 3, 0, 2, "B"⟩, 2/3, 2/3, 1,
          2⟩ : ItemAssociation)).confidence * 100))
        ++ "% of customers order this together" :=
  c7_message_uses_truncated_percentage
    [⟨1, true, none, 10, 2, 0, 1, "A"⟩, ⟨2, true, none, 8, 3, 0, 2, "B"⟩]
    [⟨"completed", [some 1, some 2]⟩, ⟨"completed", [some 1, some 2]⟩,
      ⟨"completed", [some 1]⟩] 1 3 CacheState.empty _ (by decide)

/-- C7 as stated is false: at confidence 2/3 the code renders "66%"
(truncation) where the spec's round formula renders "67%". -/
theorem c7_message_round_counterexample :
    ((get_frequently_bought_together
        [⟨1, true, none, 10, 2, 0, 1, "A"⟩, ⟨2, true, none, 8, 3, 0, 2, "B"⟩]
        [⟨"completed", [some 1, some 2]⟩, ⟨"completed", [some 1, some 2]⟩,
          ⟨"completed", [some 1]⟩] 1 3 CacheState.empty).1.map
      ItemAssociation.message)
      = ["66% of customers order this together"] ∧
    ((get_frequently_bought_together
        [⟨1, true, none, 10, 2, 0, 1, "A"⟩, ⟨2, true, none, 8, 3, 0, 2, "B"⟩]
        [⟨"completed", [some 1, some 2]⟩, ⟨"completed", [some 1, some 2]⟩,
          ⟨"completed", [some 1]⟩] 1 3 CacheState.empty).1.map
      (fun a => spec_fbt_message a.confidence))
      = ["67% of customers order this together"] := by
  constructor
  · decide
  · decide

/-- A successful indexed read of a Python-sliced list reads the base list. -/
theorem pySlice_getElem?_some {n : Int} {l : List α} {i : Nat} {a : α}
    (h : (pySlice n l)[i]? = some a) : l[i]? = some a := by
  have take_case : ∀ (k : Nat), (l.take k)[i]? = some a → l[i]? = some a := by
    intro k hk
    have hi : i < (l.take k).length := by
      obtain ⟨hlt, _⟩ := List.getElem?_eq_some.mp hk
      exact hlt
    rw [List.length_take, Nat.lt_min] at hi
    rwa [List.getElem?_take_of_lt hi.1] at hk
  unfold pySlice at h
  split at h
  · exact take_case _ h
  · exact take_case _ h

/-- In `xs ++ ys` with `p` false on all of `xs` and true on all of `ys`, any
element read at an index after a `p`-true element is itself `p`-true. -/
theorem append_partition_getElem? {p : α → Bool} {xs ys : List α}
    (hxs : ∀ x ∈ xs, p x = false) (hys : ∀ y ∈ ys, p y = true)
    {i j : Nat} {a b : α} (hij : i < j)
    (ha : (xs ++ ys)[i]? = some a) (hb : (xs ++ ys)[j]? = some b)
    (hpa : p a = true) : p b = true := by
  have hilen : xs.length ≤ i := by
    by_contra hlt
    push_neg at hlt
    rw [List.getElem?_append_left hlt] at ha
    have hfalse := hxs a (List.getElem?_mem ha)
    rw [hfalse] at hpa
    exact Bool.false_ne_true hpa
  have hjlen : xs.length ≤ j := Nat.le_trans hilen (Nat.le_of_lt hij)
  rw [List.getElem?_append_right hjlen] at hb
  exact hys b (List.getElem?_mem hb)

/-- C5: `get_cross_sell_suggestions` places every result whose section is
not among the cart's sections before any result whose section is in the
cart: if the result at index `i` belongs to a cart section, every result at
a later index `j` does too. In the spec's scenario — a cart drawn only from
section S1 and an active S2 candidate appearing in the returned list — the
S2 item therefore appears before any S1 item. -/
theorem c5_cross_sell_prioritizes_other_sections (catalog : List MenuItem)
    (hist : List OrderRec) (current_items : List Nat) (limit : Int)
    (st : CacheState) (i j : Nat) (ri rj : RecommendationResult)
    (hij : i < j)
    (hi : ((get_cross_sell_suggestions catalog hist current_items limit
      st).1)[i]? = some ri)
    (hj : ((get_cross_sell_suggestions catalog hist current_items limit
      st).1)[j]? = some rj)
    (hsame : ri.item.section_id ∈ currentSections catalog current_items) :
    rj.item.section_id ∈ currentSections catalog current_items := by
  unfold get_cross_sell_suggestions at hi hj
  have hi' := pySlice_getElem?_some hi
  have hj' := pySlice_getElem?_some hj
  have hp := append_partition_getElem?
    (p := fun r : RecommendationResult =>
      (currentSections catalog current_items).contains r.item.section_id)
    (fun x hx => by
      have := (List.mem_filter.mp hx).2
      simpa using this)
    (fun y hy => by
      have := (List.mem_filter.mp hy).2
      simpa using this)
    hij hi' hj' (by simpa using hsame)
  simpa using hp

/-- Witness for C5: a cart in section 1, candidates in sections 1 and 2;
the section-2 item is returned first, and positions 1 and 2 hold the
section-1 items. -/
theorem c5_cross_sell_prioritizes_other_sections_witness :
    ((((get_cross_sell_suggestions
        [⟨1, true, none, 10, 2, 5, 1, "A"⟩, ⟨2, true, none, 5, 0, 0, 2, "B"⟩,
          ⟨3, true, none, 10, 0, 0, 1, "C"⟩, ⟨4, true, none, 8, 0, 0, 1, "D"⟩]
        [] [1] 3 CacheState.empty).1)[2]?).getD
        (⟨⟨0, false, none, 0, 0, 0, 0, ""⟩, 0, "", 0, 0, 0, 0, 0, none⟩ :
          RecommendationResult)).item.section_id
      ∈ currentSections
        [⟨1, true, none, 10, 2, 5, 1, "A"⟩, ⟨2, true, none, 5, 0, 0, 2, "B"⟩,
          ⟨3, true, none, 10, 0, 0, 1, "C"⟩, ⟨4, true, none, 8, 0, 0, 1, "D"⟩]
        [1] := by
  refine c5_cross_sell_prioritizes_other_sections
    [⟨1, true, none, 10, 2, 5, 1, "A"⟩, ⟨2, true, none, 5, 0, 0, 2, "B"⟩,
      ⟨3, true, none, 10, 0, 0, 1, "C"⟩, ⟨4, true, none, 8, 0, 0, 1, "D"⟩]
    [] [1] 3 CacheState.empty 1 2
    ((((get_cross_sell_suggestions
        [⟨1, true, none, 10, 2, 5, 1, "A"⟩, ⟨2, true, none, 5, 0, 0, 2, "B"⟩,
          ⟨3, true, none, 10, 0, 0, 1, "C"⟩, ⟨4, true, none, 8, 0, 0, 1, "D"⟩]
        [] [1] 3 CacheState.empty).1)[1]?).getD
        (⟨⟨0, false, none, 0, 0, 0, 0, ""⟩, 0, "", 0, 0, 0, 0, 0, none⟩ :
          RecommendationResult))
    ((((get_cross_sell_suggestions
        [⟨1, true, none, 10, 2, 5, 1, "A"⟩, ⟨2, true, none, 5, 0, 0, 2, "B"⟩,
          ⟨3, true, none, 10, 0, 0, 1, "C"⟩, ⟨4, true, none, 8, 0, 0, 1, "D"⟩]
        [] [1] 3 CacheState.empty).1)[2]?).getD
        (⟨⟨0, false, none, 0, 0, 0, 0, ""⟩, 0, "", 0, 0, 0, 0, 0, none⟩ :
          RecommendationResult))
    (by decide) (by decide) (by decide) (by decide)

/-- Reading back the per-item key just written. -/
theorem fbtGet_fbtSet (st : CacheState) (k : Nat) (v : List ItemAssociation) :
    fbtGet (fbtSet st k v) k = some v := by
  unfold fbtGet fbtSet
  simp

/-- The join loop never lengthens the entry list. -/
theorem length_joinEntries_le (catalog : List MenuItem)
    (es : List AffinityEntry) :
    (joinEntries catalog es).length ≤ es.length :=
  List.length_filterMap_le _ _

/-- Every joined association refers to an active catalog item. -/
theorem joinEntries_active {catalog : List MenuItem} {es : List AffinityEntry}
    {a : ItemAssociation} (h : a ∈ joinEntries catalog es) :
    a.item.is_active = true := by
  unfold joinEntries at h
  obtain ⟨ad, _, hma⟩ := List.mem_filterMap.mp h
  rcases hlk : lookupActive catalog ad.item_id with _ | it
  · rw [hlk] at hma
    simp at hma
  · rw [hlk] at hma
    obtain rfl := Option.some_inj.mp hma
    have hfind := List.find?_some hlk
    exact (Bool.and_eq_true_iff.mp hfind).2

/-- Data used by the C10 witness: a four-item catalog. -/
def c10cat : List MenuItem :=
  [⟨1, true, none, 10, 2, 0, 1, "A"⟩, ⟨2, true, none, 5, 0, 0, 2, "B"⟩,
    ⟨3, true, none, 10, 0, 0, 1, "C"⟩, ⟨4, true, none, 8, 0, 0, 1, "D"⟩]

/-- Data used by the C10 witness: three realized orders pairing item 1 with
three different items, so item 1 holds three qualifying associations. -/
def c10hist : List OrderRec :=
  [⟨"completed", [some 1, some 2]⟩, ⟨"completed", [some 1, some 3]⟩,
    ⟨"completed", [some 1, some 4]⟩]

/-- C10: a cache-missing `get_item_associations` call with non-negative
limit `l1` and non-empty result writes exactly its joined, `l1`-truncated,
active-only list to the per-item cache; any second cached call on the same
item — whatever its limit `l2` — merely re-slices that cached list, so it
returns at most `l1` entries even when the matrix holds more. -/
theorem c10_fbt_cache_truncates_later_calls (catalog : List MenuItem)
    (hist : List OrderRec) (item_id : Nat) (l1 l2 : Int) (st0 : CacheState)
    (hmiss : fbtGet st0 item_id = none) (hl1 : 0 ≤ l1)
    (hne : (get_item_associations catalog hist item_id l1 true st0).1 ≠ []) :
    (get_item_associations catalog hist item_id l1 true st0).1.length
      ≤ l1.toNat ∧
    (∀ a ∈ (get_item_associations catalog hist item_id l1 true st0).1,
      a.item.is_active = true) ∧
    fbtGet (get_item_associations catalog hist item_id l1 true st0).2 item_id
      = some (get_item_associations catalog hist item_id l1 true st0).1 ∧
    (get_item_associations catalog hist item_id l2 true
        (get_item_associations catalog hist item_id l1 true st0).2).1
      = pySlice l2 (get_item_associations catalog hist item_id l1 true st0).1 ∧
    ((get_item_associations catalog hist item_id l2 true
        (get_item_associations catalog hist item_id l1 true st0).2).1).length
      ≤ l1.toNat := by
  have h1 : get_item_associations catalog hist item_id l1 true st0
      = get_item_associations_body catalog hist item_id l1 true st0 := by
    simp [get_item_associations, hmiss]
  rw [h1] at hne ⊢
  rcases hx : assocGet (fetchMatrix hist item_id true st0).1 item_id
    with _ | entries
  · exfalso
    apply hne
    simp only [get_item_associations_body]
    rw [hx]
  · have hbody : get_item_associations_body catalog hist item_id l1 true st0
        = (joinEntries catalog (pySlice l1 entries),
           fbtSet (fetchMatrix hist item_id true st0).2 item_id
             (joinEntries catalog (pySlice l1 entries))) := by
      simp only [get_item_associations_body]
      rw [hx]
      rfl
    rw [hbody] at hne ⊢
    have hne' : joinEntries catalog (pySlice l1 entries) ≠ [] := hne
    have hlen1 : (joinEntries catalog (pySlice l1 entries)).length ≤ l1.toNat :=
      Nat.le_trans (length_joinEntries_le _ _)
        (length_pySlice_le_toNat _ _ hl1)
    have h2 : (get_item_associations catalog hist item_id l2 true
        (fbtSet (fetchMatrix hist item_id true st0).2 item_id
          (joinEntries catalog (pySlice l1 entries)))).1
        = pySlice l2 (joinEntries catalog (pySlice l1 entries)) := by
      unfold get_item_associations
      rw [fbtGet_fbtSet]
      simp only [if_pos hne']
      rfl
    refine ⟨hlen1, ?_, fbtGet_fbtSet _ _ _, h2, ?_⟩
    · intro a haJ
      exact joinEntries_active haJ
    · rw [h2]
      exact Nat.le_trans (length_pySlice_le _ _) hlen1

/-- Witness for C10: the first call asks for 1 of item 1's three qualifying
associations; a second cached call asking for 3 still returns only 1. -/
theorem c10_fbt_cache_truncates_later_calls_witness :
    ((get_item_associations c10cat c10hist 1 3 true
        (get_item_associations c10cat c10hist 1 1 true CacheState.empty).2).1).length
      ≤ (1 : Int).toNat ∧
    (entriesFor c10hist 1).length = 3 ∧
    ((get_item_associations c10cat c10hist 1 3 true
        (get_item_associations c10cat c10hist 1 1 true
          CacheState.empty).2).1).length = 1 :=
  ⟨(c10_fbt_cache_truncates_later_calls c10cat c10hist 1 1 3 CacheState.empty
      (by decide) (by decide) (by decide)).2.2.2.2,
    by decide, by decide⟩

end MenuRec
